import Mathlib

/-!
Verification of the ChefCam recipe-extraction core and the analyze-route
request validation (`src/app/api/analyze/route.ts`) against its
natural-language specification.

The TypeScript code is shallowly embedded: JSON values become an inductive
type, the JavaScript runtime operations the code relies on (`String(x)`
coercion, truthiness, property access — which throws on `null` —,
`String.prototype.indexOf`/`lastIndexOf`/`slice`, regex-based fence
stripping, `JSON.parse`) are modelled as executable Lean functions, and the
route's validation prefix becomes a pure function from a request model to a
response outcome.

Modelling notes, fixed once here:
* JSON number literals are modelled as integers (`Int`).  The recipe schema
  uses only strings and the claims never involve fractional numbers; the
  parser rejects fraction/exponent forms instead of reading them.
* String literals inside JSON support the single-character escapes
  (`\"`, `\\`, `\/`, `\n`, `\t`, `\r`, `\b`, `\f`); `\u` escapes are not
  modelled and make the parse fail.  No claim involves them.
* Character case folding is ASCII, matching what the `/```json/gi` regex and
  `toLowerCase` do on all inputs relevant to the media-type set and fences.
-/

/-- A parsed JSON value, the result type of `JSON.parse`.  Object members are
kept in source order; duplicate keys are resolved last-wins at lookup time,
as `JSON.parse` does. -/
inductive Json where
  | null : Json
  | bool : Bool → Json
  | num : Int → Json
  | str : String → Json
  | arr : List Json → Json
  | obj : List (String × Json) → Json

/-- The backtick character, written via its code point. -/
def tick : Char := Char.ofNat 96

/-- The opening-brace character, written via its code point. -/
def lbrace : Char := Char.ofNat 123

/-- The closing-brace character, written via its code point. -/
def rbrace : Char := Char.ofNat 125

/-- JavaScript truthiness of a JSON value: `null`, `false`, `0` and `""` are
falsy, everything else (including every array and object) is truthy. -/
def jsTruthy : Json → Bool
  | Json.null => false
  | Json.bool b => b
  | Json.num n => !(n = 0)
  | Json.str s => !(s = "")
  | Json.arr _ => true
  | Json.obj _ => true

/-- Member lookup on a parsed JSON object: the LAST binding of a duplicated
key wins, matching what `JSON.parse` leaves in the object. -/
def jsLookup : List (String × Json) → String → Option Json
  | [], _ => none
  | (k, v) :: rest, key =>
    match jsLookup rest key with
    | some r => some r
    | none => if k = key then some v else none

/-- Property read `v.key` on a non-`null` JSON value: a member lookup on
objects, `undefined` (here `none`) on primitives and arrays.  Reading a
property of `null` throws in JavaScript; callers handle that case before
using this function. -/
def jsProp (v : Json) (key : String) : Option Json :=
  match v with
  | Json.obj kvs => jsLookup kvs key
  | _ => none

/-- The JavaScript idiom `v || d`: the value itself when present and truthy,
the default `d` otherwise (absent values read as `undefined`, which is
falsy). -/
def jsOrDefault (v : Option Json) (d : Json) : Json :=
  match v with
  | some x => if jsTruthy x then x else d
  | none => d

mutual
/-- JavaScript `String(x)` on a JSON value: `null`, booleans and numbers
print their literal form, arrays join their elements with commas (with
`null` elements printing as the empty string, per `Array.prototype.join`),
and plain objects print as `[object Object]`. -/
def jsString : Json → String
  | Json.null => "null"
  | Json.bool true => "true"
  | Json.bool false => "false"
  | Json.num n => toString n
  | Json.str s => s
  | Json.arr xs => String.intercalate "," (jsStringParts xs)
  | Json.obj _ => "[object Object]"

/-- Element renderings used by `Array.prototype.join`: `null` becomes the
empty string, every other element is rendered by `jsString`. -/
def jsStringParts : List Json → List String
  | [] => []
  | x :: xs =>
    (match x with
     | Json.null => ""
     | _ => jsString x) :: jsStringParts xs
end

/-- Whitespace removed by `String.prototype.trim`. -/
def isTrimSpace (c : Char) : Bool :=
  c = ' ' || c = '\t' || c = '\n' || c = '\r' ||
  c.toNat = 11 || c.toNat = 12 || c.toNat = 160 || c.toNat = 65279

/-- Case-insensitive match of an input character against a lowercase ASCII
letter, the semantics of the `i` flag of `/```json/gi` on its letters. -/
def ciMatch (c : Char) (lower : Char) : Bool :=
  c = lower || c.toNat = lower.toNat - 32

/-- One global pass of `raw.replace(/```json/gi, "")`: scanning left to
right, a case-insensitive occurrence of three backticks followed by `json`
is deleted and scanning resumes after it; otherwise the character is kept
and scanning advances by one.  Occurrences shorter than seven characters
cannot match. -/
def stripJsonFence : List Char → List Char
  | c1 :: c2 :: c3 :: c4 :: c5 :: c6 :: c7 :: rest =>
    if c1 = tick && c2 = tick && c3 = tick && ciMatch c4 'j' && ciMatch c5 's'
        && ciMatch c6 'o' && ciMatch c7 'n' then
      stripJsonFence rest
    else
      c1 :: stripJsonFence (c2 :: c3 :: c4 :: c5 :: c6 :: c7 :: rest)
  | c :: rest => c :: stripJsonFence rest
  | [] => []

/-- One global pass of `.replace(/```/g, "")`: every run of three backticks
found scanning left to right is deleted. -/
def stripTicks : List Char → List Char
  | c1 :: c2 :: c3 :: rest =>
    if c1 = tick && c2 = tick && c3 = tick then
      stripTicks rest
    else
      c1 :: stripTicks (c2 :: c3 :: rest)
  | c :: rest => c :: stripTicks rest
  | [] => []

/-- `String.prototype.trim`: drop trim whitespace from both ends. -/
def trimBoth (l : List Char) : List Char :=
  (((l.dropWhile isTrimSpace).reverse).dropWhile isTrimSpace).reverse

/-- The cleaning pipeline of `parseModelJson` on character lists:
`raw.replace(/```json/gi, "").replace(/```/g, "").trim()`. -/
def cleanList (l : List Char) : List Char :=
  trimBoth (stripTicks (stripJsonFence l))

/-- The cleaned text `parseModelJson` slices its JSON candidate from. -/
def cleanText (raw : String) : String :=
  String.mk (cleanList raw.data)

/-- `String.prototype.indexOf` for a single character, with the JavaScript
`-1` not-found sentinel. -/
def jsIndexOfAux (c : Char) : List Char → Nat → Int
  | [], _ => -1
  | x :: xs, i => if x = c then (i : Int) else jsIndexOfAux c xs (i + 1)

/-- Index of the first occurrence of `c`, or `-1`. -/
def jsIndexOf (s : List Char) (c : Char) : Int :=
  jsIndexOfAux c s 0

/-- `String.prototype.lastIndexOf` for a single character. -/
def jsLastIndexOfAux (c : Char) : List Char → Nat → Int → Int
  | [], _, acc => acc
  | x :: xs, i, acc => jsLastIndexOfAux c xs (i + 1) (if x = c then (i : Int) else acc)

/-- Index of the last occurrence of `c`, or `-1`. -/
def jsLastIndexOf (s : List Char) (c : Char) : Int :=
  jsLastIndexOfAux c s 0 (-1)

/-- `String.prototype.slice` with both indices, including the clamping and
negative-index conventions of JavaScript. -/
def jsSlice (s : List Char) (start stop : Int) : List Char :=
  let len : Int := s.length
  let st := if start < 0 then max (len + start) 0 else min start len
  let en := if stop < 0 then max (len + stop) 0 else min stop len
  (s.drop st.toNat).take (en.toNat - st.toNat)

/-- Candidate selection of `parseModelJson` on the cleaned text: when both a
first opening brace and a last closing brace are found (`!== -1`), the slice
between them inclusive; otherwise the full cleaned text.  The source does
not compare the two positions. -/
def candidateFrom (cleaned : List Char) : List Char :=
  let firstBrace := jsIndexOf cleaned lbrace
  let lastBrace := jsLastIndexOf cleaned rbrace
  if firstBrace ≠ -1 ∧ lastBrace ≠ -1 then
    jsSlice cleaned firstBrace (lastBrace + 1)
  else
    cleaned

/-- The JSON candidate string `parseModelJson` hands to `JSON.parse`. -/
def jsonCandidate (raw : String) : String :=
  String.mk (candidateFrom (cleanList raw.data))

/-- Candidate selection as the specification words it: the slice is taken
only when the first opening brace PRECEDES the last closing brace, with the
full cleaned text as the fallback in every other case.  Stated for
comparison with `jsonCandidate`, which follows the source. -/
def jsonCandidateSpec (raw : String) : String :=
  let cleaned := cleanList raw.data
  let firstBrace := jsIndexOf cleaned lbrace
  let lastBrace := jsLastIndexOf cleaned rbrace
  if firstBrace ≠ -1 ∧ lastBrace ≠ -1 ∧ firstBrace < lastBrace then
    String.mk (jsSlice cleaned firstBrace (lastBrace + 1))
  else
    String.mk cleaned

/-- Whitespace the JSON grammar allows between tokens. -/
def isJsonWs (c : Char) : Bool :=
  c = ' ' || c = '\t' || c = '\n' || c = '\r'

/-- Skip inter-token JSON whitespace. -/
def skipWs (s : List Char) : List Char :=
  s.dropWhile isJsonWs

/-- Single-character string escapes of JSON. -/
def escChar (c : Char) : Option Char :=
  if c = '"' then some '"'
  else if c = '\\' then some '\\'
  else if c = '/' then some '/'
  else if c = 'n' then some '\n'
  else if c = 't' then some '\t'
  else if c = 'r' then some '\r'
  else if c = 'b' then some (Char.ofNat 8)
  else if c = 'f' then some (Char.ofNat 12)
  else none

/-- Body of a JSON string literal, after the opening quote: the decoded
characters and the input remaining after the closing quote.  Raw control
characters are rejected, as `JSON.parse` rejects them. -/
def parseStringBody : List Char → Option (List Char × List Char)
  | [] => none
  | c :: r =>
    if c = '"' then some ([], r)
    else if c = '\\' then
      match r with
      | [] => none
      | e :: r2 =>
        match escChar e with
        | none => none
        | some ec => (parseStringBody r2).map (fun p => (ec :: p.1, p.2))
    else if c.toNat < 32 then none
    else (parseStringBody r).map (fun p => (c :: p.1, p.2))

/-- Digit run to a natural number. -/
def digitsToNat (ds : List Char) : Nat :=
  ds.foldl (fun a c => a * 10 + (c.toNat - 48)) 0

/-- Unsigned part of a JSON number literal: a digit run without a redundant
leading zero, not followed by a fraction or exponent marker (the modelling
restriction to integer literals). -/
def parseNatNum (s : List Char) : Option (Nat × List Char) :=
  let ds := s.takeWhile Char.isDigit
  let rest := s.dropWhile Char.isDigit
  if ds.isEmpty then none
  else if 1 < ds.length && ds.headD ' ' = '0' then none
  else
    match rest with
    | c :: _ =>
      if c = '.' || c = 'e' || c = 'E' then none else some (digitsToNat ds, rest)
    | [] => some (digitsToNat ds, rest)

/-- A JSON number literal, with optional leading minus sign. -/
def parseNumber (s : List Char) : Option (Json × List Char) :=
  match s with
  | [] => none
  | c :: rest =>
    if c = '-' then
      (parseNatNum rest).map (fun p => (Json.num (-(p.1 : Int)), p.2))
    else
      (parseNatNum s).map (fun p => (Json.num ((p.1 : Nat) : Int), p.2))

mutual
/-- One JSON value, consuming leading whitespace; fuel bounds the recursion
depth and is chosen generously from the input length at the top entry. -/
def parseVal : Nat → List Char → Option (Json × List Char)
  | 0, _ => none
  | fuel + 1, s =>
    match skipWs s with
    | [] => none
    | c :: rest =>
      if c = lbrace then parseObjRest fuel rest
      else if c = '[' then parseArrRest fuel rest
      else if c = '"' then
        (parseStringBody rest).map (fun p => (Json.str (String.mk p.1), p.2))
      else if c = 'n' then
        match rest with
        | 'u' :: 'l' :: 'l' :: r => some (Json.null, r)
        | _ => none
      else if c = 't' then
        match rest with
        | 'r' :: 'u' :: 'e' :: r => some (Json.bool true, r)
        | _ => none
      else if c = 'f' then
        match rest with
        | 'a' :: 'l' :: 's' :: 'e' :: r => some (Json.bool false, r)
        | _ => none
      else parseNumber (c :: rest)

/-- Remainder of an array after its opening bracket. -/
def parseArrRest : Nat → List Char → Option (Json × List Char)
  | 0, _ => none
  | fuel + 1, s =>
    match skipWs s with
    | [] => none
    | c :: rest =>
      if c = ']' then some (Json.arr [], rest)
      else (parseElems fuel (c :: rest)).map (fun p => (Json.arr p.1, p.2))

/-- One or more comma-separated array elements, consuming the closing
bracket. -/
def parseElems : Nat → List Char → Option (List Json × List Char)
  | 0, _ => none
  | fuel + 1, s =>
    match parseVal fuel s with
    | none => none
    | some (v, r) =>
      match skipWs r with
      | [] => none
      | c :: r2 =>
        if c = ',' then (parseElems fuel r2).map (fun p => (v :: p.1, p.2))
        else if c = ']' then some ([v], r2)
        else none

/-- Remainder of an object after its opening brace. -/
def parseObjRest : Nat → List Char → Option (Json × List Char)
  | 0, _ => none
  | fuel + 1, s =>
    match skipWs s with
    | [] => none
    | c :: rest =>
      if c = rbrace then some (Json.obj [], rest)
      else (parseMembers fuel (c :: rest)).map (fun p => (Json.obj p.1, p.2))

/-- One or more comma-separated `"key": value` members, consuming the
closing brace. -/
def parseMembers : Nat → List Char → Option (List (String × Json) × List Char)
  | 0, _ => none
  | fuel + 1, s =>
    match skipWs s with
    | [] => none
    | c :: rest =>
      if c = '"' then
        match parseStringBody rest with
        | none => none
        | some (key, r1) =>
          match skipWs r1 with
          | [] => none
          | c2 :: r2 =>
            if c2 = ':' then
              match parseVal fuel r2 with
              | none => none
              | some (v, r3) =>
                match skipWs r3 with
                | [] => none
                | c3 :: r4 =>
                  if c3 = ',' then
                    (parseMembers fuel r4).map
                      (fun p => ((String.mk key, v) :: p.1, p.2))
                  else if c3 = rbrace then some ([(String.mk key, v)], r4)
                  else none
            else none
      else none
end

/-- `JSON.parse`: one JSON value covering the whole input up to trailing
whitespace, `none` on any syntax error. -/
def jsonParse (s : String) : Option Json :=
  match parseVal (s.length * 4 + 16) s.data with
  | some (v, rest) => if skipWs rest = [] then some v else none
  | none => none

/-- The errors `parseModelJson` can throw: a JSON syntax error from
`JSON.parse`, or the `TypeError` thrown by reading a property of `null`
when the parsed value is the JSON literal `null`. -/
inductive ExtractError where
  | malformedResponse : ExtractError
  | typeError : ExtractError
deriving DecidableEq

/-- One entry of the `ingredients` field as the route builds it.  The source
annotates both members as `string`, but the `as string` casts do not check
at runtime, so any truthy JSON value read from the input can end up here;
the fields therefore carry `Json`. -/
structure Ingredient where
  item : Json
  amount : Json

/-- The record `parseModelJson` returns.  The eight scalar fields are
annotated `string` (and `difficulty` as the three-value union) in the
source, but the `||` fallbacks preserve any truthy parsed value unchanged,
so the embedding gives them type `Json`; `instructions` and `platingTips`
go through `String(x)` and are genuinely lists of strings. -/
structure Recipe where
  dishName : Json
  shortDescription : Json
  cuisine : Json
  difficulty : Json
  servings : Json
  prepTime : Json
  cookTime : Json
  caloriesPerServing : Json
  ingredients : List Ingredient
  instructions : List String
  platingTips : List String

/-- Membership test `["Easy", "Medium", "Hard"].includes(v)` under the
strict equality `includes` uses: true exactly when `v` is one of the three
strings. -/
def jsIncludesStr (l : List String) (v : Json) : Bool :=
  match v with
  | Json.str s => l.contains s
  | _ => false

/-- The `difficulty` field: the parsed value when the membership check
accepts it, `"Medium"` otherwise.  The source tests
`includes(parsed.difficulty || "")`; since `""` is never in the list, the
`|| ""` collapse makes the test equivalent to testing the raw value, and on
success the raw value (one of the three strings) is returned. -/
def difficultyField (d : Option Json) : Json :=
  match d with
  | some x => if jsIncludesStr ["Easy", "Medium", "Hard"] x then x else Json.str "Medium"
  | none => Json.str "Medium"

/-- The element filter `(x) => x && typeof x === "object"` applied to
`ingredients` entries: truthy values whose `typeof` is `object`, i.e.
objects and (non-empty or empty alike) arrays; `null` has `typeof` `object`
but is falsy. -/
def keepIngredient (x : Json) : Bool :=
  jsTruthy x &&
    (match x with
     | Json.null => true
     | Json.obj _ => true
     | Json.arr _ => true
     | _ => false)

/-- Mapping of one retained `ingredients` entry: per-field defaults applied
independently via `||`.  The entry is truthy (never `null`), so its
property reads cannot throw. -/
def mkIngredient (x : Json) : Ingredient :=
  { item := jsOrDefault (jsProp x "item") (Json.str "Ingredient")
    amount := jsOrDefault (jsProp x "amount") (Json.str "To taste") }

/-- The `ingredients` field: filter-then-map over an array source, the
empty list whenever `Array.isArray` rejects the source. -/
def ingredientsField (v : Option Json) : List Ingredient :=
  match v with
  | some (Json.arr xs) => (xs.filter keepIngredient).map mkIngredient
  | _ => []

/-- The `instructions`/`platingTips` fields: `String(x)` over an array
source, then `filter(Boolean)`, which on strings keeps exactly the
non-empty ones; the empty list whenever `Array.isArray` rejects the
source. -/
def stringListField (v : Option Json) : List String
  := match v with
  | some (Json.arr xs) => (xs.map jsString).filter (fun s => !(s = ""))
  | _ => []

/-- Construction of the returned record from the value `JSON.parse`
produced.  Every field reads a property of `parsed`; when `parsed` is the
JSON literal `null` the very first read throws a `TypeError`, and on every
other value all reads are total, so the throw check factors out in front. -/
def buildRecipe (parsed : Json) : Except ExtractError Recipe :=
  match parsed with
  | Json.null => Except.error ExtractError.typeError
  | _ =>
    Except.ok
      { dishName := jsOrDefault (jsProp parsed "dishName") (Json.str "Unknown Dish")
        shortDescription :=
          jsOrDefault (jsProp parsed "shortDescription")
            (Json.str "A flavorful dish generated from your photo.")
        cuisine := jsOrDefault (jsProp parsed "cuisine") (Json.str "Fusion")
        difficulty := difficultyField (jsProp parsed "difficulty")
        servings := jsOrDefault (jsProp parsed "servings") (Json.str "2-3")
        prepTime := jsOrDefault (jsProp parsed "prepTime") (Json.str "20 min")
        cookTime := jsOrDefault (jsProp parsed "cookTime") (Json.str "30 min")
        caloriesPerServing :=
          jsOrDefault (jsProp parsed "caloriesPerServing") (Json.str "Approx. 450 kcal")
        ingredients := ingredientsField (jsProp parsed "ingredients")
        instructions := stringListField (jsProp parsed "instructions")
        platingTips := stringListField (jsProp parsed "platingTips") }

/-- The full extraction routine `parseModelJson`: clean, slice the
candidate, `JSON.parse` it (a syntax failure throws, surfaced as
`malformedResponse`), then build the record (which throws a `TypeError`
exactly when the parsed value is `null`). -/
def parseModelJson (raw : String) : Except ExtractError Recipe :=
  match jsonParse (jsonCandidate raw) with
  | none => Except.error ExtractError.malformedResponse
  | some parsed => buildRecipe parsed

/-- The record produced when every field falls back to its default. -/
def defaultRecipe : Recipe :=
  { dishName := Json.str "Unknown Dish"
    shortDescription := Json.str "A flavorful dish generated from your photo."
    cuisine := Json.str "Fusion"
    difficulty := Json.str "Medium"
    servings := Json.str "2-3"
    prepTime := Json.str "20 min"
    cookTime := Json.str "30 min"
    caloriesPerServing := Json.str "Approx. 450 kcal"
    ingredients := []
    instructions := []
    platingTips := [] }

/-- ASCII lower-casing of one character, the effect of `toLowerCase` on the
characters that can influence membership in the media-type allow list. -/
def asciiLowerChar (c : Char) : Char :=
  if 'A' ≤ c ∧ c ≤ 'Z' then Char.ofNat (c.toNat + 32) else c

/-- `String.prototype.toLowerCase`, ASCII fragment. -/
def jsToLowerCase (s : String) : String :=
  String.mk (s.data.map asciiLowerChar)

/-- The media types the route accepts (`ALLOWED_MIME_TYPES`). -/
def allowedMimeTypes : List String :=
  ["image/jpeg", "image/png", "image/webp"]

/-- The upload size bound in bytes (`MAX_SERVER_IMAGE_BYTES`). -/
def maxServerImageBytes : Nat := 1500000

/-- `String.prototype.trim` on strings, used for the API-key lookup. -/
def strTrim (s : String) : String :=
  String.mk (trimBoth s.data)

/-- The file the form may carry: its declared media type and its byte
length. -/
structure UploadedFile where
  mediaType : String
  byteLength : Nat

/-- What `formData.get("image")` can return: `null` when the field is
absent, a plain string part, or a `File`. -/
inductive FormValue where
  | missing : FormValue
  | stringValue : String → FormValue
  | file : UploadedFile → FormValue

/-- The request model the validation prefix of `POST` reads: the `image`
form field. -/
structure AnalyzeRequest where
  image : FormValue

/-- The server environment: the two API-key variables the route consults. -/
structure Env where
  geminiKey : Option String
  googleKey : Option String

/-- `process.env.GEMINI_API_KEY?.trim() || process.env.GOOGLE_API_KEY?.trim()`:
the first of the two trimmed keys that is non-empty, if any. -/
def effectiveApiKey (env : Env) : Option String :=
  let fallback :=
    match env.googleKey with
    | some s => if strTrim s = "" then none else some (strTrim s)
    | none => none
  match env.geminiKey with
  | some s => if strTrim s = "" then fallback else some (strTrim s)
  | none => fallback

/-- Outcome of the `POST` handler up to the point where the external model
would be called: either an early JSON error response (status plus `error`
message, no recipe data), or the invocation of the model with the validated
media type and payload size.  The model call itself and the handling of its
response are external I/O outside this model. -/
inductive PostOutcome where
  | errorResponse : Nat → String → PostOutcome
  | invokeModel : String → Nat → PostOutcome
deriving DecidableEq

/-- The validation prefix of `POST` (`route.ts` lines 66-99): missing API
key, then the `image` field must be a `File`, then its lower-cased media
type must be in the allow list, then its byte length must not exceed the
bound; only then is the model invoked. -/
def postValidate (env : Env) (req : AnalyzeRequest) : PostOutcome :=
  match effectiveApiKey env with
  | none => PostOutcome.errorResponse 500 "Missing GEMINI_API_KEY (or GOOGLE_API_KEY)."
  | some _ =>
    match req.image with
    | FormValue.file f =>
      let mimeType := jsToLowerCase f.mediaType
      if !(allowedMimeTypes.contains mimeType) then
        PostOutcome.errorResponse 400 "Unsupported image type. Use JPG, PNG, or WebP."
      else if maxServerImageBytes < f.byteLength then
        PostOutcome.errorResponse 413
          "Image is too large. Please retake the photo with better lighting or upload a smaller image."
      else
        PostOutcome.invokeModel mimeType f.byteLength
    | _ => PostOutcome.errorResponse 400 "No image uploaded."

/-! ## General lemmas about the embedding -/

/-- Construction of the record succeeds exactly on non-`null` parsed
values. -/
theorem buildRecipe_ok_iff (v : Json) :
    (∃ r, buildRecipe v = Except.ok r) ↔ v ≠ Json.null := by
  cases v <;> simp [buildRecipe]

/-! ## C1 -/

/-- C1: refuted as stated, supporting the code-bug verdict.  On the input
object assigning the number `5` to `dishName`, extraction returns without
error, but the returned record's `dishName` is the number `5`, not text:
the or-fallback keeps any truthy value of any type, contradicting the
declared `RecipeApiResponse` field type `string`. -/
theorem c1_dishName_number_escapes_declared_type :
    parseModelJson "\x7b\"dishName\": 5\x7d" =
        Except.ok { defaultRecipe with dishName := Json.num 5 } ∧
      ∀ s : String, Json.num 5 ≠ Json.str s :=
  ⟨rfl, fun _ h => Json.noConfusion h⟩

/-! ## C2 -/

/-- C2 counterexample: the input text `null` selects the candidate `null`
(no braces, so the full cleaned text), which parses as valid JSON syntax,
yet extraction raises an error — the `TypeError` of reading
`parsed.dishName` off the JSON literal `null` — refuting the claimed
equivalence of errors with syntax failures. -/
theorem c2_counterexample_null_parses_but_throws :
    jsonParse (jsonCandidate "null") = some Json.null ∧
      parseModelJson "null" = Except.error ExtractError.typeError :=
  ⟨rfl, rfl⟩

/-- C2 amended: extraction raises an error exactly when the selected JSON
candidate fails to parse as valid JSON syntax OR parses to the JSON literal
`null` (whose property reads throw); on every other parse result a full
record is returned and no error is raised. -/
theorem c2_error_iff_syntax_failure_or_null_literal (raw : String) :
    (∃ e, parseModelJson raw = Except.error e) ↔
      (jsonParse (jsonCandidate raw) = none ∨
        jsonParse (jsonCandidate raw) = some Json.null) := by
  unfold parseModelJson
  cases h : jsonParse (jsonCandidate raw) with
  | none => simp
  | some v => cases v <;> simp [buildRecipe]

/-- Extraction factored through the parse result. -/
theorem parseModelJson_eq_buildRecipe (raw : String) (v : Json)
    (h : jsonParse (jsonCandidate raw) = some v) :
    parseModelJson raw = buildRecipe v := by
  unfold parseModelJson
  rw [h]

/-- The record built from any non-`null` parse result, field by field. -/
theorem buildRecipe_fields (v : Json) (h : v ≠ Json.null) :
    buildRecipe v = Except.ok
      { dishName := jsOrDefault (jsProp v "dishName") (Json.str "Unknown Dish")
        shortDescription :=
          jsOrDefault (jsProp v "shortDescription")
            (Json.str "A flavorful dish generated from your photo.")
        cuisine := jsOrDefault (jsProp v "cuisine") (Json.str "Fusion")
        difficulty := difficultyField (jsProp v "difficulty")
        servings := jsOrDefault (jsProp v "servings") (Json.str "2-3")
        prepTime := jsOrDefault (jsProp v "prepTime") (Json.str "20 min")
        cookTime := jsOrDefault (jsProp v "cookTime") (Json.str "30 min")
        caloriesPerServing :=
          jsOrDefault (jsProp v "caloriesPerServing") (Json.str "Approx. 450 kcal")
        ingredients := ingredientsField (jsProp v "ingredients")
        instructions := stringListField (jsProp v "instructions")
        platingTips := stringListField (jsProp v "platingTips") } := by
  cases v <;> first | exact absurd rfl h | rfl

/-! ## C5 -/

/-- C5 counterexample: on the documented mixed-type input
`[1, "", "Step two", null]` the result's `instructions` is
`["1", "Step two", "null"]`, not the claimed `["1", "Step two"]`: the
`null` element is coerced to the non-empty string `"null"` BEFORE the falsy
filter runs, so it survives. -/
theorem c5_counterexample_null_coerces_to_nonempty :
    (parseModelJson "\x7b\"instructions\": [1, \"\", \"Step two\", null]\x7d").map
        Recipe.instructions = Except.ok ["1", "Step two", "null"] ∧
      (["1", "Step two", "null"] : List String) ≠ ["1", "Step two"] :=
  ⟨rfl, by decide⟩

/-- C5 amended: for every parsed non-`null` input whose `instructions` is an
array, each element is coerced to its text form and only then are empty
strings dropped, preserving order; on `[1, "", "Step two", null]` this
yields `["1", "Step two", "null"]`, since `null` coerces to the non-empty
text `"null"`. -/
theorem c5_instructions_coerce_then_filter (raw : String) (v : Json) (xs : List Json)
    (hparse : jsonParse (jsonCandidate raw) = some v) (hnn : v ≠ Json.null)
    (hins : jsProp v "instructions" = some (Json.arr xs)) :
    (parseModelJson raw).map Recipe.instructions =
      Except.ok ((xs.map jsString).filter fun s => !(s = "")) := by
  rw [parseModelJson_eq_buildRecipe raw v hparse, buildRecipe_fields v hnn]
  simp [Except.map, stringListField, hins]

/-- C5 witness: the amended rule applied to the documented concrete input. -/
theorem c5_witness :
    (parseModelJson "\x7b\"instructions\": [1, \"\", \"Step two\", null]\x7d").map
        Recipe.instructions = Except.ok ["1", "Step two", "null"] :=
  c5_instructions_coerce_then_filter _
    (Json.obj [("instructions",
      Json.arr [Json.num 1, Json.str "", Json.str "Step two", Json.null])])
    [Json.num 1, Json.str "", Json.str "Step two", Json.null]
    rfl (fun h => Json.noConfusion h) rfl

/-! ## C8 -/

/-- Whenever the `difficulty` value is not one of the three enum strings,
the field falls back to `"Medium"`. -/
theorem difficultyField_fallback (d : Option Json)
    (h : ∀ s ∈ (["Easy", "Medium", "Hard"] : List String), d ≠ some (Json.str s)) :
    difficultyField d = Json.str "Medium" := by
  match d with
  | none => rfl
  | some Json.null => rfl
  | some (Json.bool b) => rfl
  | some (Json.num n) => rfl
  | some (Json.arr xs) => rfl
  | some (Json.obj kvs) => rfl
  | some (Json.str s) =>
    simp only [difficultyField, jsIncludesStr]
    rw [if_neg]
    intro hc
    have hs : s ∈ (["Easy", "Medium", "Hard"] : List String) := by
      simpa using hc
    exact h s hs rfl

/-- C8: whenever the parsed value's `difficulty` member is absent, `null`,
of a non-string type, or a string other than exactly `Easy`, `Medium` or
`Hard`, extraction succeeds and the result's `difficulty` is exactly
`"Medium"`. -/
theorem c8_difficulty_fallback_to_medium (raw : String) (v : Json)
    (hparse : jsonParse (jsonCandidate raw) = some v) (hnn : v ≠ Json.null)
    (hd : ∀ s ∈ (["Easy", "Medium", "Hard"] : List String),
      jsProp v "difficulty" ≠ some (Json.str s)) :
    (parseModelJson raw).map Recipe.difficulty = Except.ok (Json.str "Medium") := by
  rw [parseModelJson_eq_buildRecipe raw v hparse, buildRecipe_fields v hnn]
  simp [Except.map, difficultyField_fallback _ hd]

/-- C8 witness: a lower-case `"hard"` fails the exact membership check and
falls back to `"Medium"`. -/
theorem c8_witness :
    (parseModelJson "\x7b\"difficulty\": \"hard\"\x7d").map Recipe.difficulty =
      Except.ok (Json.str "Medium") :=
  c8_difficulty_fallback_to_medium _ (Json.obj [("difficulty", Json.str "hard")])
    rfl (fun h => Json.noConfusion h)
    (by intro s hs h; fin_cases hs <;> simp [jsProp, jsLookup] at h)

/-! ## C9 -/

/-- C9 counterexample: an `ingredients` entry that is an ARRAY is not a
key-value object, yet it is retained — `typeof` of an array is `object` and
arrays are truthy — and becomes a fully-defaulted entry instead of being
dropped. -/
theorem c9_counterexample_array_entry_retained :
    (parseModelJson "\x7b\"ingredients\": [[\"x\"]]\x7d").map Recipe.ingredients =
        Except.ok [{ item := Json.str "Ingredient", amount := Json.str "To taste" }] ∧
      ([{ item := Json.str "Ingredient", amount := Json.str "To taste" }] :
          List Ingredient) ≠ [] :=
  ⟨rfl, by simp⟩

/-- The source's entry filter keeps exactly the objects and the arrays:
`null` has `typeof` `object` but is falsy, and the primitives fail the
`typeof` test. -/
theorem keepIngredient_iff_obj_or_arr (x : Json) :
    keepIngredient x =
      (match x with
       | Json.obj _ => true
       | Json.arr _ => true
       | _ => false) := by
  cases x <;> simp [keepIngredient, jsTruthy]

/-- C9 amended: a non-sequence `ingredients` value (for example a single
string) yields the empty sequence; within a sequence, entries that are
neither objects nor arrays (nulls, booleans, numbers, strings) are dropped
without coercion, while object AND array entries are retained, each
receiving `item`/`amount` defaults independently. -/
theorem c9_ingredients_rule (raw : String) (v : Json)
    (hparse : jsonParse (jsonCandidate raw) = some v) (hnn : v ≠ Json.null) :
    (∀ s : String, jsProp v "ingredients" = some (Json.str s) →
        (parseModelJson raw).map Recipe.ingredients = Except.ok []) ∧
      (∀ xs : List Json, jsProp v "ingredients" = some (Json.arr xs) →
        (parseModelJson raw).map Recipe.ingredients =
          Except.ok ((xs.filter fun x =>
            (match x with
             | Json.obj _ => true
             | Json.arr _ => true
             | _ => false)).map mkIngredient)) := by
  rw [parseModelJson_eq_buildRecipe raw v hparse, buildRecipe_fields v hnn]
  constructor
  · intro s hs
    simp [Except.map, ingredientsField, hs]
  · intro xs hxs
    simp only [Except.map, ingredientsField, hxs]
    rw [List.filter_congr fun x _ => keepIngredient_iff_obj_or_arr x]

/-- C9 witness: the amended rule applied to a mixed entry list — two
key-value objects (the second missing `amount`), a number, `null`, a string
and an array; the primitives and `null` are dropped, the array is retained
with both defaults. -/
theorem c9_witness :
    (parseModelJson "\x7b\"ingredients\": [\x7b\"item\":\"Corn\",\"amount\":\"2 cups\"\x7d, \x7b\"item\":\"Lime\"\x7d, 5, null, \"x\", [\"y\"]]\x7d").map
        Recipe.ingredients =
      Except.ok
        [{ item := Json.str "Corn", amount := Json.str "2 cups" },
         { item := Json.str "Lime", amount := Json.str "To taste" },
         { item := Json.str "Ingredient", amount := Json.str "To taste" }] :=
  (c9_ingredients_rule
    "\x7b\"ingredients\": [\x7b\"item\":\"Corn\",\"amount\":\"2 cups\"\x7d, \x7b\"item\":\"Lime\"\x7d, 5, null, \"x\", [\"y\"]]\x7d"
    (Json.obj [("ingredients", Json.arr
      [Json.obj [("item", Json.str "Corn"), ("amount", Json.str "2 cups")],
       Json.obj [("item", Json.str "Lime")], Json.num 5, Json.null,
       Json.str "x", Json.arr [Json.str "y"]])])
    rfl (fun h => Json.noConfusion h)).2
    [Json.obj [("item", Json.str "Corn"), ("amount", Json.str "2 cups")],
     Json.obj [("item", Json.str "Lime")], Json.num 5, Json.null,
     Json.str "x", Json.arr [Json.str "y"]] rfl

/-! ## C6 -/

/-- Fence stripping only deletes characters. -/
theorem stripJsonFence_sublist : ∀ l : List Char, List.Sublist (stripJsonFence l) l
  | c1 :: c2 :: c3 :: c4 :: c5 :: c6 :: c7 :: rest => by
    simp only [stripJsonFence]
    split
    · exact (stripJsonFence_sublist rest).trans
        (List.Sublist.cons _ <| List.Sublist.cons _ <| List.Sublist.cons _ <|
          List.Sublist.cons _ <| List.Sublist.cons _ <| List.Sublist.cons _ <|
          List.Sublist.cons _ <| List.Sublist.refl _)
    · exact List.Sublist.cons₂ _
        (stripJsonFence_sublist (c2 :: c3 :: c4 :: c5 :: c6 :: c7 :: rest))
  | [c1, c2, c3, c4, c5, c6] => by
    simp only [stripJsonFence]
    exact List.Sublist.refl _
  | [c1, c2, c3, c4, c5] => by
    simp only [stripJsonFence]
    exact List.Sublist.refl _
  | [c1, c2, c3, c4] => by
    simp only [stripJsonFence]
    exact List.Sublist.refl _
  | [c1, c2, c3] => by
    simp only [stripJsonFence]
    exact List.Sublist.refl _
  | [c1, c2] => by
    simp only [stripJsonFence]
    exact List.Sublist.refl _
  | [c1] => by
    simp only [stripJsonFence]
    exact List.Sublist.refl _
  | [] => List.Sublist.refl _

/-- Backtick stripping only deletes characters. -/
theorem stripTicks_sublist : ∀ l : List Char, List.Sublist (stripTicks l) l
  | c1 :: c2 :: c3 :: rest => by
    simp only [stripTicks]
    split
    · exact (stripTicks_sublist rest).trans
        (List.Sublist.cons _ <| List.Sublist.cons _ <| List.Sublist.cons _ <|
          List.Sublist.refl _)
    · exact List.Sublist.cons₂ _ (stripTicks_sublist (c2 :: c3 :: rest))
  | [c1, c2] => by
    simp only [stripTicks]
    exact List.Sublist.refl _
  | [c1] => by
    simp only [stripTicks]
    exact List.Sublist.refl _
  | [] => List.Sublist.refl _

/-- Every character of the cleaned text already occurs in the raw text. -/
theorem mem_of_mem_cleanList {c : Char} {l : List Char} (h : c ∈ cleanList l) :
    c ∈ l := by
  unfold cleanList trimBoth at h
  rw [List.mem_reverse] at h
  have h1 := (List.dropWhile_sublist (l := ((stripTicks (stripJsonFence l)).dropWhile
    isTrimSpace).reverse) (p := isTrimSpace)).subset h
  rw [List.mem_reverse] at h1
  have h2 := (List.dropWhile_sublist (p := isTrimSpace)).subset h1
  exact (stripJsonFence_sublist l).subset ((stripTicks_sublist _).subset h2)

/-- A character list with no occurrence of `c` indexes to `-1`. -/
theorem jsIndexOfAux_of_not_mem (c : Char) :
    ∀ (s : List Char) (i : Nat), (∀ x ∈ s, x ≠ c) → jsIndexOfAux c s i = -1
  | [], _, _ => rfl
  | x :: xs, i, h => by
    simp only [jsIndexOfAux]
    rw [if_neg (h x (List.mem_cons_self x xs))]
    exact jsIndexOfAux_of_not_mem c xs (i + 1) fun y hy => h y (List.mem_cons_of_mem _ hy)

/-- A character list with no occurrence of `c` last-indexes to `-1`. -/
theorem jsLastIndexOfAux_of_not_mem (c : Char) :
    ∀ (s : List Char) (i : Nat) (acc : Int),
      (∀ x ∈ s, x ≠ c) → jsLastIndexOfAux c s i acc = acc
  | [], _, _, _ => rfl
  | x :: xs, i, acc, h => by
    simp only [jsLastIndexOfAux]
    rw [if_neg (h x (List.mem_cons_self x xs))]
    exact jsLastIndexOfAux_of_not_mem c xs (i + 1) acc
      fun y hy => h y (List.mem_cons_of_mem _ hy)

/-- C6 counterexample: the brace-free input `42` does NOT signal
`MalformedResponse`: the whole cleaned text is the candidate, it parses as
the JSON number `42`, and extraction succeeds with every field at its
default. -/
theorem c6_counterexample_braceless_number :
    (∀ c ∈ "42".data, c ≠ lbrace ∧ c ≠ rbrace) ∧
      parseModelJson "42" = Except.ok defaultRecipe :=
  ⟨by decide, rfl⟩

/-- C6 amended: for every input text with no brace characters at all WHOSE
CLEANED TEXT IS NOT VALID JSON (plain prose in particular), extraction
signals `MalformedResponse`.  (A brace-free input that is itself valid
JSON, such as a bare number, parses and succeeds instead.) -/
theorem c6_braceless_invalid_is_malformed (raw : String)
    (hb : ∀ c ∈ raw.data, c ≠ lbrace ∧ c ≠ rbrace)
    (hp : jsonParse (cleanText raw) = none) :
    parseModelJson raw = Except.error ExtractError.malformedResponse := by
  have hcl : ∀ c ∈ cleanList raw.data, c ≠ lbrace ∧ c ≠ rbrace :=
    fun c hc => hb c (mem_of_mem_cleanList hc)
  have h1 : jsIndexOf (cleanList raw.data) lbrace = -1 :=
    jsIndexOfAux_of_not_mem _ _ _ fun x hx => (hcl x hx).1
  have h2 : jsLastIndexOf (cleanList raw.data) rbrace = -1 :=
    jsLastIndexOfAux_of_not_mem _ _ _ _ fun x hx => (hcl x hx).2
  unfold parseModelJson jsonCandidate candidateFrom
  rw [h1, h2]
  simp only [ne_eq, not_true_eq_false, false_and, if_false, ite_false]
  unfold cleanText at hp
  rw [hp]

/-- C6 witness: plain prose with no braces is rejected as malformed. -/
theorem c6_witness :
    parseModelJson "hello" = Except.error ExtractError.malformedResponse :=
  c6_braceless_invalid_is_malformed "hello" (by decide) rfl

/-! ## C10 -/

/-- C10: provided the server has an API key configured (otherwise the
handler's own configuration check answers 500 before any input validation),
every POST request is validated before the external model is invoked, with
an error-only response body: 400 when the `image` form field is missing or
not a file, 400 when the file's lower-cased media type is not one of
`image/jpeg`, `image/png`, `image/webp`, and 413 when its byte length
exceeds 1500000 — each check applying when the earlier ones pass. -/
theorem c10_validation_order_and_statuses (env : Env) (req : AnalyzeRequest)
    (hkey : (effectiveApiKey env).isSome = true) :
    ((∀ f, req.image ≠ FormValue.file f) →
        postValidate env req = PostOutcome.errorResponse 400 "No image uploaded.") ∧
      (∀ f, req.image = FormValue.file f →
        allowedMimeTypes.contains (jsToLowerCase f.mediaType) = false →
        postValidate env req =
          PostOutcome.errorResponse 400 "Unsupported image type. Use JPG, PNG, or WebP.") ∧
      (∀ f, req.image = FormValue.file f →
        allowedMimeTypes.contains (jsToLowerCase f.mediaType) = true →
        1500000 < f.byteLength →
        postValidate env req = PostOutcome.errorResponse 413
          "Image is too large. Please retake the photo with better lighting or upload a smaller image.") := by
  obtain ⟨k, hk⟩ := Option.isSome_iff_exists.mp hkey
  refine ⟨fun hnf => ?_, fun f hf hm => ?_, fun f hf hm hs => ?_⟩
  · unfold postValidate
    rw [hk]
    match hi : req.image with
    | FormValue.missing => rfl
    | FormValue.stringValue s => rfl
    | FormValue.file f => exact absurd hi (by simpa using hnf f)
  · unfold postValidate
    rw [hk, hf]
    have hm' : jsToLowerCase f.mediaType ∉ allowedMimeTypes := by simpa using hm
    simp [hm']
  · unfold postValidate
    rw [hk, hf]
    have hm' : jsToLowerCase f.mediaType ∈ allowedMimeTypes := by simpa using hm
    simp [hm', maxServerImageBytes, hs]

/-- C10 witness: with a key configured, a request whose `image` field is
absent is answered 400 with the no-image error body. -/
theorem c10_witness :
    postValidate { geminiKey := some "k", googleKey := none }
        { image := FormValue.missing } =
      PostOutcome.errorResponse 400 "No image uploaded." :=
  (c10_validation_order_and_statuses { geminiKey := some "k", googleKey := none }
    { image := FormValue.missing } rfl).1 (fun _ h => FormValue.noConfusion h)

/-! ## C4 -/

/-- Index of the first occurrence of a character, in direct `Option` form,
used to state the candidate-selection rule without sentinel values. -/
def firstIdxOf : List Char → Char → Option Nat
  | [], _ => none
  | x :: xs, c => if x = c then some 0 else (firstIdxOf xs c).map (· + 1)

/-- Index of the last occurrence of a character, in direct `Option` form. -/
def lastIdxOf : List Char → Char → Option Nat
  | [], _ => none
  | x :: xs, c =>
    match lastIdxOf xs c with
    | some i => some (i + 1)
    | none => if x = c then some 0 else none

/-- The sentinel-based scan agrees with the direct first-occurrence index. -/
theorem jsIndexOfAux_eq (c : Char) :
    ∀ (s : List Char) (n : Nat),
      jsIndexOfAux c s n = ((firstIdxOf s c).map (fun i => (i : Int) + n)).getD (-1)
  | [], _ => rfl
  | x :: xs, n => by
    simp only [jsIndexOfAux, firstIdxOf]
    by_cases hx : x = c
    · simp [hx]
    · rw [if_neg hx, if_neg hx, jsIndexOfAux_eq c xs (n + 1)]
      cases firstIdxOf xs c with
      | none => simp
      | some k =>
        show ((k : Int) + (n + 1) : Int) = (k + 1 : Nat) + n
        push_cast
        ring

/-- The sentinel-based backward scan agrees with the direct last-occurrence
index, for any accumulator. -/
theorem jsLastIndexOfAux_eq (c : Char) :
    ∀ (s : List Char) (n : Nat) (acc : Int),
      jsLastIndexOfAux c s n acc =
        (match lastIdxOf s c with
         | some i => ((i : Int) + n)
         | none => acc)
  | [], _, _ => rfl
  | x :: xs, n, acc => by
    simp only [jsLastIndexOfAux, lastIdxOf]
    rw [jsLastIndexOfAux_eq c xs (n + 1)]
    cases lastIdxOf xs c with
    | some i => push_cast; ring_nf
    | none => by_cases hx : x = c <;> simp [hx]

/-- A first-occurrence index is a position inside the list. -/
theorem firstIdxOf_lt_length :
    ∀ (s : List Char) (c : Char) (i : Nat), firstIdxOf s c = some i → i < s.length
  | [], _, _, h => by simp [firstIdxOf] at h
  | x :: xs, c, i, h => by
    simp only [firstIdxOf] at h
    by_cases hx : x = c
    · rw [if_pos hx] at h
      cases h
      simp
    · rw [if_neg hx] at h
      cases hf : firstIdxOf xs c with
      | none => rw [hf] at h; simp at h
      | some k =>
        rw [hf] at h
        simp at h
        have := firstIdxOf_lt_length xs c k hf
        simp only [List.length_cons]
        omega

/-- A last-occurrence index is a position inside the list. -/
theorem lastIdxOf_lt_length :
    ∀ (s : List Char) (c : Char) (i : Nat), lastIdxOf s c = some i → i < s.length
  | [], _, _, h => by simp [lastIdxOf] at h
  | x :: xs, c, i, h => by
    simp only [lastIdxOf] at h
    cases hf : lastIdxOf xs c with
    | some k =>
      rw [hf] at h
      cases h
      have := lastIdxOf_lt_length xs c k hf
      simp only [List.length_cons]
      omega
    | none =>
      rw [hf] at h
      by_cases hx : x = c
      · rw [if_pos hx] at h
        cases h
        simp
      · rw [if_neg hx] at h
        exact absurd h (Option.noConfusion)

/-- The JavaScript slice with in-range natural start agrees with
drop-then-take. -/
theorem jsSlice_nat (s : List Char) (i j : Nat) (hi : i ≤ s.length) :
    jsSlice s (i : Int) (j : Int) = (s.drop i).take (j - i) := by
  simp only [jsSlice]
  rw [if_neg (by omega), if_neg (by omega)]
  have hst : (min (i : Int) (s.length : Int)).toNat = i := by omega
  have hen : (min (j : Int) (s.length : Int)).toNat = min j s.length := by omega
  rw [hst, hen]
  by_cases hj : j ≤ s.length
  · rw [Nat.min_eq_left hj]
  · rw [Nat.min_eq_right (by omega)]
    rw [List.take_of_length_le (by simp),
      List.take_of_length_le (by simp only [List.length_drop]; omega)]

/-- C4 counterexample: on the cleaned text of two reversed braces, the code
slices between the braces and selects the EMPTY candidate, while the
specification's rule (slice only when the first opening brace precedes the
last closing brace) selects the full cleaned text. -/
theorem c4_counterexample_reversed_braces :
    jsonCandidate "\x7d\x7b" = "" ∧ jsonCandidateSpec "\x7d\x7b" = "\x7d\x7b" ∧
      jsonCandidate "\x7d\x7b" ≠ jsonCandidateSpec "\x7d\x7b" :=
  ⟨rfl, rfl, by decide⟩

/-- C4 amended: after cleaning, if a first opening brace and a last closing
brace both exist — in EITHER order — the candidate is the inclusive slice
from the first opening brace to the last closing brace (which is empty when
the last closing brace precedes the first opening brace); only when one of
the braces is absent is the candidate the full cleaned text. -/
theorem c4_candidate_selection_rule (raw : String) :
    (∀ i j : Nat, firstIdxOf (cleanList raw.data) lbrace = some i →
        lastIdxOf (cleanList raw.data) rbrace = some j →
        jsonCandidate raw = String.mk (((cleanList raw.data).drop i).take (j + 1 - i))) ∧
      ((firstIdxOf (cleanList raw.data) lbrace = none ∨
          lastIdxOf (cleanList raw.data) rbrace = none) →
        jsonCandidate raw = cleanText raw) := by
  constructor
  · intro i j h1 h2
    have e1 : jsIndexOf (cleanList raw.data) lbrace = (i : Int) := by
      rw [jsIndexOf, jsIndexOfAux_eq, h1]
      simp
    have e2 : jsLastIndexOf (cleanList raw.data) rbrace = (j : Int) := by
      rw [jsLastIndexOf, jsLastIndexOfAux_eq, h2]
      simp
    unfold jsonCandidate candidateFrom
    rw [e1, e2, if_pos ⟨by omega, by omega⟩]
    have hij : ((j : Int) + 1) = ((j + 1 : Nat) : Int) := by push_cast; ring
    rw [hij, jsSlice_nat _ _ _ (Nat.le_of_lt (firstIdxOf_lt_length _ _ _ h1))]
  · intro h
    unfold jsonCandidate candidateFrom cleanText
    rw [if_neg]
    rintro ⟨hne1, hne2⟩
    cases h with
    | inl h1 =>
      refine hne1 ?_
      rw [jsIndexOf, jsIndexOfAux_eq, h1]
      rfl
    | inr h2 =>
      refine hne2 ?_
      rw [jsLastIndexOf, jsLastIndexOfAux_eq, h2]

/-- C4 witness: prose around a braced span selects exactly that span. -/
theorem c4_witness : jsonCandidate "a\x7bx\x7db" = "\x7bx\x7d" :=
  (c4_candidate_selection_rule "a\x7bx\x7db").1 1 3 rfl rfl

/-! ## C3 -/

/-- A full-schema input whose types all match the data model but whose
`cuisine` is the empty string. -/
def c3Input : String :=
  "\x7b\"dishName\":\"Tacos\",\"shortDescription\":\"Nice\",\"cuisine\":\"\",\"difficulty\":\"Easy\",\"servings\":\"2\",\"prepTime\":\"5 min\",\"cookTime\":\"10 min\",\"caloriesPerServing\":\"300 kcal\",\"ingredients\":[\x7b\"item\":\"Corn\",\"amount\":\"2 cups\"\x7d],\"instructions\":[\"Cook\"],\"platingTips\":[\"Serve\"]\x7d"

set_option maxRecDepth 8192 in
/-- C3 counterexample: a valid JSON object supplying all eleven fields with
values of the declared types, whose `cuisine` is the (type-correct) empty
string; extraction replaces it by the default `"Fusion"`, so the identity
law fails — the falsy-based defaulting substitutes defaults for empty
strings even in schema-valid input. -/
theorem c3_counterexample_empty_string_defaults :
    jsonParse (jsonCandidate c3Input) = some (Json.obj
      [("dishName", Json.str "Tacos"), ("shortDescription", Json.str "Nice"),
       ("cuisine", Json.str ""), ("difficulty", Json.str "Easy"),
       ("servings", Json.str "2"), ("prepTime", Json.str "5 min"),
       ("cookTime", Json.str "10 min"), ("caloriesPerServing", Json.str "300 kcal"),
       ("ingredients", Json.arr [Json.obj [("item", Json.str "Corn"),
         ("amount", Json.str "2 cups")]]),
       ("instructions", Json.arr [Json.str "Cook"]),
       ("platingTips", Json.arr [Json.str "Serve"])]) ∧
      (parseModelJson c3Input).map Recipe.cuisine = Except.ok (Json.str "Fusion") ∧
      Json.str "Fusion" ≠ Json.str "" :=
  ⟨rfl, rfl, fun h => by simp at h⟩


/-- A present, truthy (non-empty) string is kept unchanged by the
or-default. -/
theorem jsOrDefault_nonempty_str (s : String) (hs : s ≠ "") (d : Json) :
    jsOrDefault (some (Json.str s)) d = Json.str s := by
  simp [jsOrDefault, jsTruthy, hs]

/-- Coercing a genuine string to text is the identity. -/
theorem jsString_str (s : String) : jsString (Json.str s) = s := by
  simp [jsString]

/-- A list of non-empty strings passes the falsy filter unchanged. -/
theorem filter_ne_empty_id (l : List String) (h : ∀ s ∈ l, s ≠ "") :
    l.filter (fun s => !(s = "")) = l := by
  rw [List.filter_eq_self]
  intro a ha
  simpa using h a ha

/-- On an array of genuine non-empty strings, the coerce-then-filter field
is the identity. -/
theorem stringListField_strs (l : List String) (h : ∀ s ∈ l, s ≠ "") :
    stringListField (some (Json.arr (l.map Json.str))) = l := by
  have hmap : List.map (fun s => jsString (Json.str s)) l = l := by
    induction l with
    | nil => rfl
    | cons a t ih => simp [jsString_str, ih]
  simp only [stringListField, List.map_map, Function.comp_def]
  rw [hmap]
  exact filter_ne_empty_id l h

/-- A two-member ingredient object with non-empty values maps to itself. -/
theorem mkIngredient_obj (i a : String) (hi : i ≠ "") (ha : a ≠ "") :
    mkIngredient (Json.obj [("item", Json.str i), ("amount", Json.str a)]) =
      { item := Json.str i, amount := Json.str a } := by
  unfold mkIngredient
  rw [show jsProp (Json.obj [("item", Json.str i), ("amount", Json.str a)]) "item" =
      some (Json.str i) from rfl,
    show jsProp (Json.obj [("item", Json.str i), ("amount", Json.str a)]) "amount" =
      some (Json.str a) from rfl,
    jsOrDefault_nonempty_str i hi, jsOrDefault_nonempty_str a ha]

/-- An enum string passes the membership check and is kept unchanged. -/
theorem difficultyField_mem (df : String)
    (h : df ∈ (["Easy", "Medium", "Hard"] : List String)) :
    difficultyField (some (Json.str df)) = Json.str df := by
  have hc : (["Easy", "Medium", "Hard"] : List String).contains df = true := by
    simpa using h
  simp only [difficultyField, jsIncludesStr]
  rw [if_pos hc]

/-- On an array of two-member ingredient objects with non-empty values, the
ingredients field is the identity (every entry passes the filter, and no
default fires). -/
theorem ingredientsField_objs (ings : List (String × String))
    (h : ∀ p ∈ ings, p.1 ≠ "" ∧ p.2 ≠ "") :
    ingredientsField (some (Json.arr (ings.map fun p =>
        Json.obj [("item", Json.str p.1), ("amount", Json.str p.2)]))) =
      ings.map (fun p => ({ item := Json.str p.1, amount := Json.str p.2 } : Ingredient)) := by
  simp only [ingredientsField]
  rw [List.filter_eq_self.mpr, List.map_map]
  · refine List.map_congr_left fun p hp => ?_
    exact mkIngredient_obj p.1 p.2 (h p hp).1 (h p hp).2
  · intro a ha
    obtain ⟨p, _, rfl⟩ := List.mem_map.mp ha
    rfl

/-- C3 amended: the identity law holds for every full-schema input whose
TEXT VALUES ARE ALL NON-EMPTY — the eight scalar fields, both members of
every ingredient entry, and every element of `instructions` and
`platingTips` — with `difficulty` one of the three enum strings.  (The
counterexample shows the law fails for type-correct empty strings, which
the falsy defaulting replaces.) -/
theorem c3_identity_on_nonempty_full_schema (raw : String)
    (kvs : List (String × Json)) (dn sd cu df sv pt ck cal : String)
    (ings : List (String × String)) (ins tips : List String)
    (hparse : jsonParse (jsonCandidate raw) = some (Json.obj kvs))
    (h1 : jsLookup kvs "dishName" = some (Json.str dn)) (hdn : dn ≠ "")
    (h2 : jsLookup kvs "shortDescription" = some (Json.str sd)) (hsd : sd ≠ "")
    (h3 : jsLookup kvs "cuisine" = some (Json.str cu)) (hcu : cu ≠ "")
    (h4 : jsLookup kvs "difficulty" = some (Json.str df))
    (hdf : df ∈ (["Easy", "Medium", "Hard"] : List String))
    (h5 : jsLookup kvs "servings" = some (Json.str sv)) (hsv : sv ≠ "")
    (h6 : jsLookup kvs "prepTime" = some (Json.str pt)) (hpt : pt ≠ "")
    (h7 : jsLookup kvs "cookTime" = some (Json.str ck)) (hck : ck ≠ "")
    (h8 : jsLookup kvs "caloriesPerServing" = some (Json.str cal)) (hcal : cal ≠ "")
    (h9 : jsLookup kvs "ingredients" = some (Json.arr (ings.map fun p =>
      Json.obj [("item", Json.str p.1), ("amount", Json.str p.2)])))
    (hing : ∀ p ∈ ings, p.1 ≠ "" ∧ p.2 ≠ "")
    (h10 : jsLookup kvs "instructions" = some (Json.arr (ins.map Json.str)))
    (hins : ∀ s ∈ ins, s ≠ "")
    (h11 : jsLookup kvs "platingTips" = some (Json.arr (tips.map Json.str)))
    (htips : ∀ s ∈ tips, s ≠ "") :
    parseModelJson raw = Except.ok
      { dishName := Json.str dn, shortDescription := Json.str sd,
        cuisine := Json.str cu, difficulty := Json.str df,
        servings := Json.str sv, prepTime := Json.str pt,
        cookTime := Json.str ck, caloriesPerServing := Json.str cal,
        ingredients := ings.map fun p =>
          { item := Json.str p.1, amount := Json.str p.2 },
        instructions := ins, platingTips := tips } := by
  rw [parseModelJson_eq_buildRecipe raw _ hparse,
    buildRecipe_fields _ (fun h => Json.noConfusion h)]
  simp only [jsProp]
  rw [h1, h2, h3, h4, h5, h6, h7, h8, h9, h10, h11,
    jsOrDefault_nonempty_str dn hdn, jsOrDefault_nonempty_str sd hsd,
    jsOrDefault_nonempty_str cu hcu, difficultyField_mem df hdf,
    jsOrDefault_nonempty_str sv hsv, jsOrDefault_nonempty_str pt hpt,
    jsOrDefault_nonempty_str ck hck, jsOrDefault_nonempty_str cal hcal,
    ingredientsField_objs ings hing, stringListField_strs ins hins,
    stringListField_strs tips htips]

set_option maxRecDepth 8192 in
/-- C3 witness: the identity law at a concrete full-schema input with all
text values non-empty — every field of the result equals its input value. -/
theorem c3_witness :
    parseModelJson "\x7b\"dishName\":\"Tacos\",\"shortDescription\":\"Nice\",\"cuisine\":\"Mexican\",\"difficulty\":\"Easy\",\"servings\":\"2\",\"prepTime\":\"5 min\",\"cookTime\":\"10 min\",\"caloriesPerServing\":\"300 kcal\",\"ingredients\":[\x7b\"item\":\"Corn\",\"amount\":\"2 cups\"\x7d],\"instructions\":[\"Cook\"],\"platingTips\":[\"Serve\"]\x7d" =
      Except.ok
        { dishName := Json.str "Tacos", shortDescription := Json.str "Nice",
          cuisine := Json.str "Mexican", difficulty := Json.str "Easy",
          servings := Json.str "2", prepTime := Json.str "5 min",
          cookTime := Json.str "10 min", caloriesPerServing := Json.str "300 kcal",
          ingredients := [{ item := Json.str "Corn", amount := Json.str "2 cups" }],
          instructions := ["Cook"], platingTips := ["Serve"] } :=
  c3_identity_on_nonempty_full_schema
    "\x7b\"dishName\":\"Tacos\",\"shortDescription\":\"Nice\",\"cuisine\":\"Mexican\",\"difficulty\":\"Easy\",\"servings\":\"2\",\"prepTime\":\"5 min\",\"cookTime\":\"10 min\",\"caloriesPerServing\":\"300 kcal\",\"ingredients\":[\x7b\"item\":\"Corn\",\"amount\":\"2 cups\"\x7d],\"instructions\":[\"Cook\"],\"platingTips\":[\"Serve\"]\x7d"
    [("dishName", Json.str "Tacos"), ("shortDescription", Json.str "Nice"),
     ("cuisine", Json.str "Mexican"), ("difficulty", Json.str "Easy"),
     ("servings", Json.str "2"), ("prepTime", Json.str "5 min"),
     ("cookTime", Json.str "10 min"), ("caloriesPerServing", Json.str "300 kcal"),
     ("ingredients", Json.arr [Json.obj [("item", Json.str "Corn"),
       ("amount", Json.str "2 cups")]]),
     ("instructions", Json.arr [Json.str "Cook"]),
     ("platingTips", Json.arr [Json.str "Serve"])]
    "Tacos" "Nice" "Mexican" "Easy" "2" "5 min" "10 min" "300 kcal"
    [("Corn", "2 cups")] ["Cook"] ["Serve"]
    rfl
    rfl (by decide) rfl (by decide) rfl (by decide) rfl (by decide)
    rfl (by decide) rfl (by decide) rfl (by decide) rfl (by decide)
    rfl (by decide) rfl (by decide) rfl (by decide)

/-! ## C7 -/

/-- A newline is not a backtick. -/
theorem nl_ne_tick : ('\n' : Char) ≠ tick := by decide

/-- A newline never matches the letters of the fence tag. -/
theorem ciMatch_nl_j : ciMatch '\n' 'j' = false := by decide

/-- A newline never matches the letters of the fence tag. -/
theorem ciMatch_nl_s : ciMatch '\n' 's' = false := by decide

/-- A newline never matches the letters of the fence tag. -/
theorem ciMatch_nl_o : ciMatch '\n' 'o' = false := by decide

/-- A newline never matches the letters of the fence tag. -/
theorem ciMatch_nl_n : ciMatch '\n' 'n' = false := by decide

/-- A scan position whose head is not a backtick never starts a fence
match, so the character is copied and scanning continues. -/
theorem stripJsonFence_cons_of_head_ne (c : Char) (l : List Char) (h : c ≠ tick) :
    stripJsonFence (c :: l) = c :: stripJsonFence l := by
  rcases l with _ | ⟨a, _ | ⟨b, _ | ⟨d, _ | ⟨e, _ | ⟨f, _ | ⟨g, m⟩⟩⟩⟩⟩⟩ <;>
    simp [stripJsonFence, h]

/-- Same for the backtick-run pass. -/
theorem stripTicks_cons_of_head_ne (c : Char) (l : List Char) (h : c ≠ tick) :
    stripTicks (c :: l) = c :: stripTicks l := by
  rcases l with _ | ⟨a, _ | ⟨b, m⟩⟩ <;> simp [stripTicks, h]

/-- A trailing newline-plus-closing-fence passes through the tag-fence
stripping untouched: no case-insensitive `json` fence can overlap it, since
every seven-character window touching it contains the newline or runs off
the end. -/
theorem stripJsonFence_append_close : ∀ l : List Char,
    stripJsonFence (l ++ ['\n', tick, tick, tick]) =
      stripJsonFence l ++ ['\n', tick, tick, tick]
  | c1 :: c2 :: c3 :: c4 :: c5 :: c6 :: c7 :: rest => by
    have ih := stripJsonFence_append_close rest
    have ih2 := stripJsonFence_append_close (c2 :: c3 :: c4 :: c5 :: c6 :: c7 :: rest)
    simp only [List.cons_append] at ih2 ⊢
    simp only [stripJsonFence]
    split
    · rw [ih]
    · rw [ih2]
      rfl
  | [c1, c2, c3, c4, c5, c6] => by
    simp [stripJsonFence, ciMatch_nl_j, ciMatch_nl_s, ciMatch_nl_o, ciMatch_nl_n, nl_ne_tick]
  | [c1, c2, c3, c4, c5] => by
    simp [stripJsonFence, ciMatch_nl_j, ciMatch_nl_s, ciMatch_nl_o, ciMatch_nl_n, nl_ne_tick]
  | [c1, c2, c3, c4] => by
    simp [stripJsonFence, ciMatch_nl_j, ciMatch_nl_s, ciMatch_nl_o, ciMatch_nl_n, nl_ne_tick]
  | [c1, c2, c3] => by
    simp [stripJsonFence, ciMatch_nl_j, ciMatch_nl_s, ciMatch_nl_o, ciMatch_nl_n, nl_ne_tick]
  | [c1, c2] => by
    simp [stripJsonFence, ciMatch_nl_j, ciMatch_nl_s, ciMatch_nl_o, ciMatch_nl_n, nl_ne_tick]
  | [c1] => by
    simp [stripJsonFence, ciMatch_nl_j, ciMatch_nl_s, ciMatch_nl_o, ciMatch_nl_n, nl_ne_tick]
  | [] => by
    simp [stripJsonFence, nl_ne_tick]

/-- The backtick-run pass removes the trailing closing fence and nothing
else of the suffix: the newline blocks any backtick run from crossing the
boundary. -/
theorem stripTicks_append_close : ∀ l : List Char,
    stripTicks (l ++ ['\n', tick, tick, tick]) = stripTicks l ++ ['\n']
  | c1 :: c2 :: c3 :: rest => by
    have ih := stripTicks_append_close rest
    have ih2 := stripTicks_append_close (c2 :: c3 :: rest)
    simp only [List.cons_append] at ih2 ⊢
    simp only [stripTicks]
    split
    · rw [ih]
    · rw [ih2]
      rfl
  | [c1, c2] => by simp [stripTicks, nl_ne_tick]
  | [c1] => by simp [stripTicks, nl_ne_tick]
  | [] => by simp [stripTicks, nl_ne_tick]

/-- Trimming strips a leading and a trailing newline added around a text. -/
theorem trimBoth_wrap (l : List Char) :
    trimBoth ('\n' :: (l ++ ['\n'])) = trimBoth l := by
  unfold trimBoth
  rw [List.dropWhile_cons_of_pos (by decide), List.dropWhile_append]
  by_cases he : (l.dropWhile isTrimSpace).isEmpty
  · rw [if_pos he]
    have hl : l.dropWhile isTrimSpace = [] := by simpa using he
    rw [hl]
    decide
  · rw [if_neg he]
    rw [List.reverse_append]
    simp only [List.reverse_cons, List.reverse_nil, List.nil_append, List.singleton_append]
    rw [List.dropWhile_cons_of_pos (by decide)]

/-- No fence match can start at a position whose second character is not a
backtick. -/
theorem stripJsonFence_cons₂_of_ne (c d : Char) (l : List Char) (hd : d ≠ tick) :
    stripJsonFence (c :: d :: l) = c :: stripJsonFence (d :: l) := by
  rcases l with _ | ⟨a, _ | ⟨b, _ | ⟨e, _ | ⟨f, _ | ⟨g, m⟩⟩⟩⟩⟩ <;>
    simp [stripJsonFence, hd]

/-- No fence match can start at a position whose third character is not a
backtick. -/
theorem stripJsonFence_cons₃_of_ne (c d e : Char) (l : List Char) (he : e ≠ tick) :
    stripJsonFence (c :: d :: e :: l) = c :: stripJsonFence (d :: e :: l) := by
  rcases l with _ | ⟨a, _ | ⟨b, _ | ⟨f, _ | ⟨g, m⟩⟩⟩⟩ <;>
    simp [stripJsonFence, he]

/-- No fence match can start at a position whose fourth character is a
newline. -/
theorem stripJsonFence_cons₄_nl (c d e : Char) (l : List Char) :
    stripJsonFence (c :: d :: e :: '\n' :: l) =
      c :: stripJsonFence (d :: e :: '\n' :: l) := by
  rcases l with _ | ⟨a, _ | ⟨b, _ | ⟨f, m⟩⟩⟩ <;>
    simp [stripJsonFence, ciMatch_nl_j]

/-- An opening fence WITHOUT a tag, followed by a newline, passes through
the tag-fence pass untouched. -/
theorem stripJsonFence_ticks_nl (l : List Char) :
    stripJsonFence (tick :: tick :: tick :: '\n' :: l) =
      tick :: tick :: tick :: '\n' :: stripJsonFence l := by
  rw [stripJsonFence_cons₄_nl, stripJsonFence_cons₃_of_ne _ _ _ _ nl_ne_tick,
    stripJsonFence_cons₂_of_ne _ _ _ nl_ne_tick,
    stripJsonFence_cons_of_head_ne _ _ nl_ne_tick]

/-- A backtick run at the head of the second pass is removed. -/
theorem stripTicks_ticks (l : List Char) :
    stripTicks (tick :: tick :: tick :: l) = stripTicks l := by
  simp [stripTicks]

/-- Cleaning is invariant under wrapping in a tagged fence: the opening
fence (with any casing of the tag) and the closing fence are removed, and
the two newlines they bring are trimmed away. -/
theorem cleanList_fence_tag (cj cs co cn : Char) (l : List Char)
    (hj : ciMatch cj 'j' = true) (hs2 : ciMatch cs 's' = true)
    (ho : ciMatch co 'o' = true) (hn : ciMatch cn 'n' = true) :
    cleanList (tick :: tick :: tick :: cj :: cs :: co :: cn :: '\n' ::
      (l ++ ['\n', tick, tick, tick])) = cleanList l := by
  unfold cleanList
  have h1 : stripJsonFence (tick :: tick :: tick :: cj :: cs :: co :: cn :: '\n' ::
      (l ++ ['\n', tick, tick, tick])) =
      stripJsonFence ('\n' :: (l ++ ['\n', tick, tick, tick])) := by
    simp only [stripJsonFence]
    rw [if_pos (by simp [hj, hs2, ho, hn])]
  rw [h1, stripJsonFence_cons_of_head_ne _ _ nl_ne_tick, stripJsonFence_append_close,
    stripTicks_cons_of_head_ne _ _ nl_ne_tick, stripTicks_append_close, trimBoth_wrap]

/-- Cleaning is invariant under wrapping in an untagged fence. -/
theorem cleanList_fence_plain (l : List Char) :
    cleanList (tick :: tick :: tick :: '\n' ::
      (l ++ ['\n', tick, tick, tick])) = cleanList l := by
  unfold cleanList
  rw [stripJsonFence_ticks_nl, stripJsonFence_append_close, stripTicks_ticks,
    stripTicks_cons_of_head_ne _ _ nl_ne_tick, stripTicks_append_close, trimBoth_wrap]

/-- Extraction depends on the input only through its cleaned text. -/
theorem parseModelJson_congr_cleanList (a b : String)
    (h : cleanList a.data = cleanList b.data) :
    parseModelJson a = parseModelJson b := by
  unfold parseModelJson jsonCandidate
  rw [h]

/-- C7: for every input text, wrapping it in a markdown JSON code fence —
with a lower-case tag, an upper-case tag, or no language tag — yields the
same extraction result (the same record, or the same error) as the
unwrapped text. -/
theorem c7_fence_wrapping_invariance (t : String) :
    parseModelJson ("```json\n" ++ t ++ "\n```") = parseModelJson t ∧
      parseModelJson ("```JSON\n" ++ t ++ "\n```") = parseModelJson t ∧
      parseModelJson ("```\n" ++ t ++ "\n```") = parseModelJson t := by
  refine ⟨?_, ?_, ?_⟩ <;> apply parseModelJson_congr_cleanList
  · have hd : ("```json\n" ++ t ++ "\n```").data =
        tick :: tick :: tick :: 'j' :: 's' :: 'o' :: 'n' :: '\n' ::
          (t.data ++ ['\n', tick, tick, tick]) := by
      rw [String.data_append, String.data_append, List.append_assoc]
      rfl
    rw [hd, cleanList_fence_tag _ _ _ _ _ (by decide) (by decide) (by decide) (by decide)]
  · have hd : ("```JSON\n" ++ t ++ "\n```").data =
        tick :: tick :: tick :: 'J' :: 'S' :: 'O' :: 'N' :: '\n' ::
          (t.data ++ ['\n', tick, tick, tick]) := by
      rw [String.data_append, String.data_append, List.append_assoc]
      rfl
    rw [hd, cleanList_fence_tag _ _ _ _ _ (by decide) (by decide) (by decide) (by decide)]
  · have hd : ("```\n" ++ t ++ "\n```").data =
        tick :: tick :: tick :: '\n' :: (t.data ++ ['\n', tick, tick, tick]) := by
      rw [String.data_append, String.data_append, List.append_assoc]
      rfl
    rw [hd, cleanList_fence_plain]
